/-
Verification of the Zerochan image-search client (src/main.py).

Shallow embedding: the pure tag-resolution pipeline (alias table, tag
variant generator, response classifier, fetch-and-resolve loop, entry
lookup) is translated into executable Lean definitions.  The network is
modelled as an environment function mapping (request index, url, params)
to the outcome the classifier in ZerochanAPI._request would produce for
the wire response; the classifier itself (the 200/JSON/redirect-tag
dispatch of _request) is embedded as the total function classify below.
Python string primitives used by the source (str.lower, str.title,
str.strip, str.replace, dict.get, regex search for the two fixed patterns
of _extract_tag_from_html, json.loads) are embedded at character level;
comments at each definition record the correspondence.
-/
import Mathlib

namespace Zerochan

/-! ### Python string primitives -/

/-- ASCII whitespace set of Python: space, tab, newline, carriage return,
vertical tab, form feed.  (Python str.strip and regex backslash-s also
accept some non-ASCII Unicode whitespace; no string in this program or in
the claims contains those, so the ASCII set is faithful here.) -/
def isSpacePy (c : Char) : Bool :=
  c = ' ' || c = '\t' || c = '\n' || c = '\r' || c = '\x0b' || c = '\x0c'

/-- Python str.strip with no argument: remove leading and trailing
whitespace. -/
def stripChars (l : List Char) : List Char :=
  ((l.dropWhile isSpacePy).reverse.dropWhile isSpacePy).reverse

def stripPy (s : String) : String :=
  String.mk (stripChars s.toList)

/-- Python str.lower for the strings of this program: ASCII letters are
lowercased, every other character (in particular CJK) is unchanged. -/
def lowerPy (s : String) : String :=
  String.mk (s.toList.map Char.toLower)

/-- Cased-character test used by Python str.title.  The strings this
program ever title-cases are ASCII names (values of the alias tables) or
the raw user tag; ASCII letters are exactly their cased characters, and
CJK characters are uncased in Unicode, matching Char.isAlpha = false
... for CJK and true for ASCII letters. -/
def isCasedPy (c : Char) : Bool :=
  c.isAlpha

/-- Python str.title: a cased character is uppercased when the previous
character is not cased, lowercased otherwise; uncased characters pass
through and reset the word state. -/
def titleChars : Bool → List Char → List Char
  | _, [] => []
  | prevCased, c :: rest =>
    let c' := if isCasedPy c then (if prevCased then c.toLower else c.toUpper) else c
    c' :: titleChars (isCasedPy c) rest

def titlePy (s : String) : String :=
  String.mk (titleChars false s.toList)

/-- Python tag.replace(" ", "+"): the pattern is a single character, so
the replacement is a character map. -/
def spaceToPlus (s : String) : String :=
  String.mk (s.toList.map (fun c => if c = ' ' then '+' else c))

/-- Python str.replace("+", " ") on the canonical-link path segment. -/
def plusToSpace (c : Char) : Char :=
  if c = '+' then ' ' else c

/-! ### Static alias data (CHINESE_TO_ENGLISH of src/main.py, in source
order, duplicate keys of the Python dict literal included verbatim) -/

def CHINESE_TO_ENGLISH : List (String × String) := [
  ("宵宫", "Yoimiya"),
  ("荧", "Lumine"),
  ("空", "Aether"),
  ("芙宁娜", "Furina"),
  ("那维莱特", "Neuvillette"),
  ("莱欧斯利", "Wriothesley"),
  ("纳西妲", "Nahida"),
  ("雷电将军", "Raiden Shogun"),
  ("胡桃", "Hu Tao"),
  ("甘雨", "Ganyu"),
  ("刻晴", "Keqing"),
  ("莫娜", "Mona"),
  ("温迪", "Venti"),
  ("钟离", "Zhongli"),
  ("魈", "Xiao"),
  ("枫原万叶", "Kazuha"),
  ("万叶", "Kazuha"),
  ("散兵", "Scaramouche"),
  ("流浪者", "Wanderer"),
  ("八重神子", "Yae Miko"),
  ("神子", "Yae Miko"),
  ("绫华", "Ayaka"),
  ("神里绫华", "Kamisato Ayaka"),
  ("绫人", "Ayato"),
  ("神里绫人", "Kamisato Ayato"),
  ("一斗", "Itto"),
  ("荒泷一斗", "Arataki Itto"),
  ("五郎", "Gorou"),
  ("心海", "Kokomi"),
  ("珊瑚宫心海", "Sangonomiya Kokomi"),
  ("阿蕾奇诺", "Arlecchino"),
  ("仆人", "Arlecchino"),
  ("克洛琳德", "Clorinde"),
  ("娜维娅", "Navia"),
  ("林尼", "Lyney"),
  ("琳妮特", "Lynette"),
  ("菲米尼", "Freminet"),
  ("妮露", "Nilou"),
  ("赛诺", "Cyno"),
  ("提纳里", "Tighnari"),
  ("迪希雅", "Dehya"),
  ("艾尔海森", "Alhaitham"),
  ("卡维", "Kaveh"),
  ("白术", "Baizhu"),
  ("瑶瑶", "Yaoyao"),
  ("可莉", "Klee"),
  ("迪卢克", "Diluc"),
  ("琴", "Jean"),
  ("芭芭拉", "Barbara"),
  ("安柏", "Amber"),
  ("丽莎", "Lisa"),
  ("凯亚", "Kaeya"),
  ("诺艾尔", "Noelle"),
  ("班尼特", "Bennett"),
  ("雷泽", "Razor"),
  ("菲谢尔", "Fischl"),
  ("北斗", "Beidou"),
  ("凝光", "Ningguang"),
  ("香菱", "Xiangling"),
  ("行秋", "Xingqiu"),
  ("重云", "Chongyun"),
  ("七七", "Qiqi"),
  ("辛焱", "Xinyan"),
  ("砂糖", "Sucrose"),
  ("迪奥娜", "Diona"),
  ("罗莎莉亚", "Rosaria"),
  ("烟绯", "Yanfei"),
  ("优菈", "Eula"),
  ("托马", "Thoma"),
  ("九条裟罗", "Kujou Sara"),
  ("早柚", "Sayu"),
  ("夜兰", "Yelan"),
  ("久岐忍", "Kuki Shinobu"),
  ("鹿野院平藏", "Heizou"),
  ("柯莱", "Collei"),
  ("多莉", "Dori"),
  ("坎蒂丝", "Candace"),
  ("莱依拉", "Layla"),
  ("流浪者", "Wanderer"),
  ("瑶瑶", "Yaoyao"),
  ("艾莉丝", "Alhaitham"),
  ("米卡", "Mika"),
  ("卡维", "Kaveh"),
  ("绮良良", "Kirara"),
  ("珐露珊", "Faruzan"),
  ("瑶瑶", "Yaoyao"),
  ("闲云", "Xianyun"),
  ("嘉明", "Gaming"),
  ("夏沃蕾", "Chevreuse"),
  ("夏洛蒂", "Charlotte"),
  ("娜维娅", "Navia"),
  ("芙宁娜", "Furina"),
  ("那维莱特", "Neuvillette"),
  ("莱欧斯利", "Wriothesley"),
  ("希格雯", "Sigewinne"),
  ("克洛琳德", "Clorinde"),
  ("赛索斯", "Sethos"),
  ("艾梅莉埃", "Emilie"),
  ("基尼奇", "Kinich"),
  ("玛拉妮", "Mualani"),
  ("卡齐娜", "Kachina"),
  ("希诺宁", "Xilonen"),
  ("恰斯卡", "Chasca"),
  ("欧洛伦", "Ororon"),
  ("茜特菈莉", "Citlali"),
  ("伊安珊", "Iansan"),
  ("瓦雷莎", "Varesa"),
  ("伊法", "Ifa"),
  ("原神", "Genshin Impact"),
  ("旅行者", "Traveler"),
  ("初音未来", "Hatsune Miku"),
  ("miku", "Hatsune Miku"),
  ("蕾姆", "Rem"),
  ("拉姆", "Ram"),
  ("艾米莉亚", "Emilia"),
  ("碧蓝档案", "Blue Archive"),
  ("蔚蓝档案", "Blue Archive"),
  ("明日方舟", "Arknights"),
  ("崩坏星穹铁道", "Honkai: Star Rail"),
  ("星穹铁道", "Honkai: Star Rail"),
  ("崩坏", "Honkai")
]

/-- Python dict.get(k, d): in a dict literal with duplicate keys the last
binding wins, so get is a first-match lookup over the reversed pair list.
(Every duplicated key of CHINESE_TO_ENGLISH binds the same value, so this
coincides with a forward lookup as well.) -/
def dictGet (l : List (String × String)) (k d : String) : String :=
  (List.lookup k l.reverse).getD d

/-- ZerochanAPI._translate_chinese: CHINESE_TO_ENGLISH.get(tag, tag). -/
def translate_chinese (tag : String) : String :=
  dictGet CHINESE_TO_ENGLISH tag tag

/-- The common_variants dict literal local to
ZerochanAPI._generate_tag_variants (no duplicate keys). -/
def common_variants : List (String × List String) := [
  ("furina", ["Furina", "Furina de Fontaine", "Focalors"]),
  ("lumine", ["Lumine", "Traveler (Female)", "Female Traveler"]),
  ("aether", ["Aether", "Traveler (Male)", "Male Traveler"]),
  ("nahida", ["Nahida", "Lesser Lord Kusanali"]),
  ("raiden shogun", ["Raiden Shogun", "Raiden Ei", "Ei", "Baal"]),
  ("hu tao", ["Hu Tao", "Hutao"]),
  ("ganyu", ["Ganyu"]),
  ("keqing", ["Keqing"]),
  ("mona", ["Mona", "Mona Megistus"]),
  ("venti", ["Venti", "Barbatos"]),
  ("zhongli", ["Zhongli", "Rex Lapis"]),
  ("xiao", ["Xiao", "Alatus"]),
  ("kazuha", ["Kazuha", "Kaedehara Kazuha"]),
  ("scaramouche", ["Scaramouche", "Wanderer", "Kunikuzushi"]),
  ("yae miko", ["Yae Miko", "Guuji Yae"]),
  ("yoimiya", ["Yoimiya"]),
  ("ayaka", ["Ayaka", "Kamisato Ayaka"]),
  ("ayato", ["Ayato", "Kamisato Ayato"]),
  ("itto", ["Itto", "Arataki Itto"]),
  ("gorou", ["Gorou"]),
  ("kokomi", ["Kokomi", "Sangonomiya Kokomi"]),
  ("arlecchino", ["Arlecchino", "The Knave"]),
  ("clorinde", ["Clorinde"]),
  ("navia", ["Navia"]),
  ("neuvillette", ["Neuvillette"]),
  ("wriothesley", ["Wriothesley"]),
  ("lyney", ["Lyney"]),
  ("lynette", ["Lynette"]),
  ("freminet", ["Freminet"]),
  ("nilou", ["Nilou"]),
  ("cyno", ["Cyno"]),
  ("tighnari", ["Tighnari"]),
  ("dehya", ["Dehya"]),
  ("alhaitham", ["Alhaitham"]),
  ("kaveh", ["Kaveh"]),
  ("baizhu", ["Baizhu"]),
  ("yaoyao", ["Yaoyao"]),
  ("genshin impact", ["Genshin Impact", "Genshin"]),
  ("hatsune miku", ["Hatsune Miku", "Miku"])
]

/-- One step of the appending for-loop of _generate_tag_variants:
append a variant unless it is already present (exact string equality). -/
def appendVariant (acc : List String) (v : String) : List String :=
  if v ∈ acc then acc else acc ++ [v]

/-- The seeding conditional of _generate_tag_variants: the list starts
with the translated tag when translation changed it, else with the raw
tag (the two branches put the same value first). -/
def seedVariants (tag translated : String) : List String :=
  if translated ≠ tag then [translated] else [tag]

/-- The common-variants for-loop of _generate_tag_variants: when the
lowercased translated tag is a key, append each of its variants not
already present. -/
def withCommon (translated : String) (variants : List String) : List String :=
  match List.lookup (lowerPy translated) common_variants with
  | some vs => vs.foldl appendVariant variants
  | none => variants

/-- The final step of _generate_tag_variants: append the title-cased
translated tag if not already present. -/
def withCapitalized (translated : String) (variants : List String) : List String :=
  if titlePy translated ∈ variants then variants else variants ++ [titlePy translated]

/-- ZerochanAPI._generate_tag_variants: translate the tag, seed the list
with the translated form, append each common variant of the lowercased
translated tag that is not yet present, then append the title-cased
translated tag if not yet present. -/
def generate_tag_variants (tag : String) : List String :=
  withCapitalized (translate_chinese tag)
    (withCommon (translate_chinese tag) (seedVariants tag (translate_chinese tag)))

/-! ### The two fixed regular expressions of _extract_tag_from_html,
compiled by hand to character-level matchers with Python search semantics
(leftmost match, greedy quantifiers with backtracking). -/

/-- Match a literal prefix and return the remaining characters. -/
def dropPref : List Char → List Char → Option (List Char)
  | [], l => some l
  | _, [] => none
  | p :: ps, c :: cs => if p = c then dropPref ps cs else none

/-- Remainders of l after consuming k characters none of which is c, for
k from the longest such prefix down to 0: the order in which a greedy
starred character class hands positions to the rest of the pattern. -/
def gapSplits (c : Char) (l : List Char) : List (List Char) :=
  (List.range ((l.takeWhile (· ≠ c)).length + 1)).reverse.map (fun k => l.drop k)

/-- One match attempt of the title pattern
"<title>([^-]+)\\s*-\\s*Zerochan" at the head of l, returning group 1.
The greedy [^-]+ and the following \\s* together span exactly the
characters strictly before the first hyphen after the literal (neither
class accepts a hyphen), with the group taking the longest split, so
group 1 is the full hyphen-free run; after the hyphen, \\s* hands over at
the end of the whitespace run only, since the literal Z cannot match a
whitespace character any earlier. -/
def matchTitleAt (l : List Char) : Option (List Char) :=
  match dropPref "<title>".toList l with
  | none => none
  | some r =>
    let a := r.takeWhile (· ≠ '-')
    if a.isEmpty then none
    else
      match r.dropWhile (· ≠ '-') with
      | [] => none
      | _ :: r2 =>
        if "Zerochan".toList.isPrefixOf (r2.dropWhile isSpacePy) then some a else none

/-- re.search of the title pattern: try every start position from the
left, first successful attempt wins. -/
def searchTitle : List Char → Option (List Char)
  | [] => none
  | c :: tl =>
    match matchTitleAt (c :: tl) with
    | some a => some a
    | none => searchTitle tl

/-- Tail of the canonical pattern after href=": the greedy [^\"]* hands
over longest-first, then the literal /, then the group ([^\"/]+) which
(being greedy and followed by the literal double quote that it cannot
itself contain) must take the maximal slash-free quote-free run, and
succeeds exactly when that run is non-empty and terminated by the
quote. -/
def canonGroupStep (r4 : List Char) : Option (List Char) :=
  match r4 with
  | [] => none
  | c :: r5 =>
    if c = '/' then
      match r5.takeWhile (fun ch => ch ≠ '"' && ch ≠ '/'),
            r5.dropWhile (fun ch => ch ≠ '"' && ch ≠ '/') with
      | [], _ => none
      | _, [] => none
      | g0 :: gs, d :: _ => if d = '"' then some (g0 :: gs) else none
    else none

def canonAfterHref (r : List Char) : Option (List Char) :=
  (gapSplits '"' r).findSome? canonGroupStep

/-- After rel="canonical": the greedy [^>]* then the literal href=". -/
def canonAfterRel (r : List Char) : Option (List Char) :=
  (gapSplits '>' r).findSome? (fun r3 =>
    match dropPref "href=\"".toList r3 with
    | some r4 => canonAfterHref r4
    | none => none)

/-- One match attempt of the canonical pattern
"<link[^>]*rel=\"canonical\"[^>]*href=\"[^\"]*/([^\"/]+)\"" at the head
of l, returning group 1.  The nested findSome? over longest-first splits
is exactly depth-first greedy backtracking. -/
def matchCanonAt (l : List Char) : Option (List Char) :=
  match dropPref "<link".toList l with
  | none => none
  | some r1 =>
    (gapSplits '>' r1).findSome? (fun r2 =>
      match dropPref "rel=\"canonical\"".toList r2 with
      | some r3 => canonAfterRel r3
      | none => none)

/-- re.search of the canonical pattern. -/
def searchCanon : List Char → Option (List Char)
  | [] => none
  | c :: tl =>
    match matchCanonAt (c :: tl) with
    | some a => some a
    | none => searchCanon tl

/-- ZerochanAPI._extract_tag_from_html: first the title pattern (its
group stripped), else the canonical pattern (its group with plus signs
replaced by spaces), else None.  Note the source returns the stripped
title group unconditionally whenever the title pattern matches, even
when stripping leaves the empty string. -/
def extract_tag_from_html (html : String) : Option String :=
  match searchTitle html.toList with
  | some g => some (String.mk (stripChars g))
  | none =>
    match searchCanon html.toList with
    | some g => some (String.mk (g.map plusToSpace))
    | none => none

/-! ### json.loads, embedded as a recursive-descent parser.  Structure
follows the CPython json scanner: a value is an object, array, string,
number (the scanner's number regex), the literals null, true, false, or
the non-standard NaN, Infinity, -Infinity which json.loads accepts by
default; the whole input must be consumed up to trailing JSON whitespace.
Number and string payloads are kept in lexical form: no claim inspects
payload values, only whether a body parses. -/

inductive Json where
  | null
  | bool (b : Bool)
  | str (s : List Char)
  | num (lexeme : List Char)
  | nan
  | infinity (neg : Bool)
  | arr (elems : List Json)
  | obj (fields : List (List Char × Json))

/-- JSON whitespace accepted between tokens by the Python decoder. -/
def isJsonWs (c : Char) : Bool :=
  c = ' ' || c = '\t' || c = '\n' || c = '\r'

def skipWs (l : List Char) : List Char :=
  l.dropWhile isJsonWs

def isDigitC (c : Char) : Bool :=
  48 ≤ c.toNat && c.toNat ≤ 57

/-- Value of one hexadecimal digit (codepoint arithmetic: digits, then
lowercase, then uppercase letters). -/
def hexVal (c : Char) : Option Nat :=
  if 48 ≤ c.toNat ∧ c.toNat ≤ 57 then some (c.toNat - 48)
  else if 97 ≤ c.toNat ∧ c.toNat ≤ 102 then some (c.toNat - 87)
  else if 65 ≤ c.toNat ∧ c.toNat ≤ 70 then some (c.toNat - 55)
  else none

def parseHex4 (l : List Char) : Option (Nat × List Char) :=
  match l with
  | a :: b :: c :: d :: rest =>
    match hexVal a, hexVal b, hexVal c, hexVal d with
    | some x, some y, some z, some w => some (4096 * x + 256 * y + 16 * z + w, rest)
    | _, _, _, _ => none
  | _ => none

/-- Body of a JSON string after the opening quote, in strict mode:
raw control characters are rejected, escapes are the eight JSON ones plus
backslash-u with surrogate-pair joining.  (A lone surrogate is kept by
Python; Char cannot carry one, so its slot holds the null character —
a value-level difference only, parse success agrees.)  Returns the
decoded characters and the rest after the closing quote. -/
def parseStringBody : Nat → List Char → Option (List Char × List Char)
  | 0, _ => none
  | _, [] => none
  | fuel + 1, c :: rest =>
    if c = '"' then some ([], rest)
    else if c = '\\' then
      match rest with
      | [] => none
      | e :: rest2 =>
        let cont (ch : Char) (r : List Char) : Option (List Char × List Char) :=
          (parseStringBody fuel r).map (fun p => (ch :: p.1, p.2))
        if e = '"' then cont '"' rest2
        else if e = '\\' then cont '\\' rest2
        else if e = '/' then cont '/' rest2
        else if e = 'b' then cont '\x08' rest2
        else if e = 'f' then cont '\x0c' rest2
        else if e = 'n' then cont '\n' rest2
        else if e = 'r' then cont '\r' rest2
        else if e = 't' then cont '\t' rest2
        else if e = 'u' then
          match parseHex4 rest2 with
          | none => none
          | some (n, rest3) =>
            if 55296 ≤ n && n ≤ 56319 then
              match rest3 with
              | '\\' :: 'u' :: rest4 =>
                match parseHex4 rest4 with
                | some (m, rest5) =>
                  if 56320 ≤ m && m ≤ 57343 then
                    cont (Char.ofNat ((n - 55296) * 1024 + (m - 56320) + 65536)) rest5
                  else cont (Char.ofNat 0) rest3
                | none => cont (Char.ofNat 0) rest3
              | _ => cont (Char.ofNat 0) rest3
            else if 56320 ≤ n && n ≤ 57343 then cont (Char.ofNat 0) rest3
            else cont (Char.ofNat n) rest3
        else none
    else if c.toNat < 0x20 then none
    else (parseStringBody fuel rest).map (fun p => (c :: p.1, p.2))

/-- The scanner's number regex (-?(?:0|[1-9]\\d*))(\\.\\d+)?([eE][-+]?\\d+)?
matched at the current position: each optional group is taken only when
it matches in full, otherwise skipped without consuming. -/
def parseNumber (l : List Char) : Option (Json × List Char) :=
  let (sign, l1) := match l with
    | '-' :: r => (['-'], r)
    | _ => (([] : List Char), l)
  match l1 with
  | [] => none
  | c :: r =>
    if c = '0' || (isDigitC c && c ≠ '0') then
      let (intPart, r2) :=
        if c = '0' then ([c], r)
        else (c :: r.takeWhile isDigitC, r.dropWhile isDigitC)
      let (fracPart, r3) :=
        match r2 with
        | '.' :: rf =>
          let ds := rf.takeWhile isDigitC
          if ds.isEmpty then (([] : List Char), r2)
          else ('.' :: ds, rf.dropWhile isDigitC)
        | _ => (([] : List Char), r2)
      let (expPart, r4) :=
        match r3 with
        | e :: re =>
          if e = 'e' || e = 'E' then
            let (s, re2) := match re with
              | '+' :: rr => (['+'], rr)
              | '-' :: rr => (['-'], rr)
              | _ => (([] : List Char), re)
            let ds := re2.takeWhile isDigitC
            if ds.isEmpty then (([] : List Char), r3)
            else (e :: s ++ ds, re2.dropWhile isDigitC)
          else (([] : List Char), r3)
        | [] => (([] : List Char), r3)
      some (Json.num (sign ++ intPart ++ fracPart ++ expPart), r4)
    else none

/-- The three parsing states of the decoder: a value, object members
(key already positioned after its opening quote) with the fields parsed
so far, array elements with the elements parsed so far.  A single
fuel-structural function replaces the mutual recursion of the scanner so
that every equation is a definitional reduction. -/
inductive PMode where
  | value
  | members (acc : List (List Char × Json))
  | elems (acc : List Json)

/-- One JSON value / member list / element list, mirroring the dispatch
of the CPython scanner on the first non-blank character; object members
are kept in parse order (the dict built by Python keeps the last
duplicate; no claim reads fields, so the pair list itself is stored). -/
def parseJ : Nat → PMode → List Char → Option (Json × List Char)
  | 0, _, _ => none
  | fuel + 1, PMode.value, l =>
    match skipWs l with
    | [] => none
    | c :: rest =>
      if c = '"' then
        (parseStringBody (fuel + 1) rest).map (fun p => (Json.str p.1, p.2))
      else if c = '\x7b' then
        match skipWs rest with
        | '\x7d' :: r => some (Json.obj [], r)
        | '"' :: r => parseJ fuel (PMode.members []) r
        | _ => none
      else if c = '[' then
        match skipWs rest with
        | ']' :: r => some (Json.arr [], r)
        | r => parseJ fuel (PMode.elems []) r
      else
        match dropPref "null".toList (c :: rest) with
        | some r => some (Json.null, r)
        | none =>
        match dropPref "true".toList (c :: rest) with
        | some r => some (Json.bool true, r)
        | none =>
        match dropPref "false".toList (c :: rest) with
        | some r => some (Json.bool false, r)
        | none =>
        match parseNumber (c :: rest) with
        | some p => some p
        | none =>
        match dropPref "NaN".toList (c :: rest) with
        | some r => some (Json.nan, r)
        | none =>
        match dropPref "Infinity".toList (c :: rest) with
        | some r => some (Json.infinity false, r)
        | none =>
        match dropPref "-Infinity".toList (c :: rest) with
        | some r => some (Json.infinity true, r)
        | none => none
  | fuel + 1, PMode.members acc, l =>
    match parseStringBody (fuel + 1) l with
    | none => none
    | some (k, r1) =>
      match skipWs r1 with
      | ':' :: r2 =>
        match parseJ fuel PMode.value r2 with
        | none => none
        | some (v, r3) =>
          match skipWs r3 with
          | '\x7d' :: r4 => some (Json.obj (acc ++ [(k, v)]), r4)
          | ',' :: r4 =>
            match skipWs r4 with
            | '"' :: r5 => parseJ fuel (PMode.members (acc ++ [(k, v)])) r5
            | _ => none
          | _ => none
      | _ => none
  | fuel + 1, PMode.elems acc, l =>
    match parseJ fuel PMode.value l with
    | none => none
    | some (v, r1) =>
      match skipWs r1 with
      | ']' :: r2 => some (Json.arr (acc ++ [v]), r2)
      | ',' :: r2 => parseJ fuel (PMode.elems (acc ++ [v])) r2
      | _ => none

def parseValue (fuel : Nat) (l : List Char) : Option (Json × List Char) :=
  parseJ fuel PMode.value l

/-- json.loads: parse one value, then require only whitespace to remain
(the decoder raises Extra data otherwise, which _request catches as a
parse failure). -/
def jsonParse (s : String) : Option Json :=
  match parseValue (s.toList.length + 1) s.toList with
  | some (j, rest) => if skipWs rest = [] then some j else none
  | none => none

/-! ### The response classifier of ZerochanAPI._request -/

/-- The value _request produces from one wire response, as a sum type:
the parsed JSON with the final url, a redirect tag recovered from
markup, or None (any failure). -/
inductive ReqOutcome where
  | data (payload : Json) (finalUrl : String)
  | redirectTag (tag : String)
  | failure

/-- The response-classification logic of ZerochanAPI._request for a
completed HTTP exchange: non-200 statuses (the 404 arm and the catch-all
arm of the source both) return None; a 200 body is parsed as JSON; on
JSONDecodeError a tag is extracted from the markup and returned as a
redirect when truthy (non-empty), else None. -/
def classify (status : Nat) (body : String) (finalUrl : String) : ReqOutcome :=
  if status = 200 then
    match jsonParse body with
    | some j => ReqOutcome.data j finalUrl
    | none =>
      match extract_tag_from_html body with
      | some t => if t = "" then ReqOutcome.failure else ReqOutcome.redirectTag t
      | none => ReqOutcome.failure
  else ReqOutcome.failure

/-! ### The fetch-and-resolve engine (ZerochanAPI.search) and entry
lookup (ZerochanAPI.get_entry).  The transport is an environment mapping
(request index, url, params) to the ReqOutcome _request would yield; the
run returns the trace of issued requests together with the result. -/

def ZEROCHAN_API_BASE : String := "https://www.zerochan.net"

/-- A query-parameter value of the params dict. -/
inductive ParamVal where
  | str (s : String)
  | int (n : Int)

/-- The keyword arguments of ZerochanAPI.search after tags (defaults of
the source: page 1, limit 10, sort None, strict False, dimensions None,
color None, time_sort None). -/
structure SearchArgs where
  page : Int
  limit : Int
  sort : Option String
  strict : Bool
  dimensions : Option String
  color : Option String
  time_sort : Option Int

/-- The params dict built inside the candidate loop of search (it only
depends on the immutable arguments, so the per-iteration dicts are all
this one value): json always; p when page is truthy; l when limit is
truthy and in 1..250; s when sort is truthy and id or fav; strict as a
flag when strict; d when dimensions is truthy and one of the five enum
values; c when color is truthy; t when time_sort is not None and is
0, 1 or 2. -/
def buildParams (a : SearchArgs) : List (String × ParamVal) :=
  [("json", ParamVal.str "")]
  ++ (if a.page ≠ 0 then [("p", ParamVal.int a.page)] else [])
  ++ (if a.limit ≠ 0 ∧ 1 ≤ a.limit ∧ a.limit ≤ 250 then [("l", ParamVal.int a.limit)] else [])
  ++ (match a.sort with
      | some s => if s ≠ "" ∧ (s = "id" ∨ s = "fav") then [("s", ParamVal.str s)] else []
      | none => [])
  ++ (if a.strict then [("strict", ParamVal.str "")] else [])
  ++ (match a.dimensions with
      | some d =>
        if d ≠ "" ∧ (d = "large" ∨ d = "huge" ∨ d = "landscape" ∨ d = "portrait" ∨ d = "square")
        then [("d", ParamVal.str d)] else []
      | none => [])
  ++ (match a.color with
      | some c => if c ≠ "" then [("c", ParamVal.str c)] else []
      | none => [])
  ++ (match a.time_sort with
      | some t => if t = 0 ∨ t = 1 ∨ t = 2 then [("t", ParamVal.int t)] else []
      | none => [])

/-- Request url for a tag: spaces become plus signs in the path. -/
def urlOf (tag : String) : String :=
  ZEROCHAN_API_BASE ++ "/" ++ spaceToPlus tag

/-- The transport environment: outcome of the n-th upstream request of
one call, for the given url and params. -/
def Env : Type :=
  Nat → String → List (String × ParamVal) → ReqOutcome

/-- One entry of the request trace: a main attempt for an original
candidate, or the single follow-up after a redirect. -/
inductive Req where
  | cand (tag : String)
  | follow (tag : String)
deriving DecidableEq

def Req.tag : Req → String
  | .cand t => t
  | .follow t => t

/-- Tags of the main attempts in a trace. -/
def candTags (tr : List Req) : List String :=
  tr.filterMap (fun r => match r with | .cand t => some t | .follow _ => none)

/-- Tags of all requests in a trace. -/
def allTags (tr : List Req) : List String :=
  tr.map Req.tag

/-- The candidate loop of ZerochanAPI.search.  Each iteration appends the
candidate to tried_tags and requests its url; None continues; a
redirect_tag result issues one follow-up request when the tag is truthy
and not in tried_tags (the redirect tag itself is never appended to
tried_tags by the source) and returns only if the follow-up yields data;
a data result returns with used_tag set. -/
def searchGo (env : Env) (params : List (String × ParamVal)) :
    List String → List String → Nat → List Req × Option (Json × String × String)
  | [], _, _ => ([], none)
  | tag :: rest, tried, n =>
    let tried' := tried ++ [tag]
    match env n (urlOf tag) params with
    | .data j u => ([Req.cand tag], some (j, u, tag))
    | .failure =>
      let p := searchGo env params rest tried' (n + 1)
      (Req.cand tag :: p.1, p.2)
    | .redirectTag t =>
      if t ≠ "" ∧ t ∉ tried' then
        match env (n + 1) (urlOf t) params with
        | .data j u => ([Req.cand tag, Req.follow t], some (j, u, t))
        | _ =>
          let p := searchGo env params rest tried' (n + 2)
          (Req.cand tag :: Req.follow t :: p.1, p.2)
      else
        let p := searchGo env params rest tried' (n + 1)
        (Req.cand tag :: p.1, p.2)

/-- ZerochanAPI.search: generate the candidate list, then run the loop
with an empty tried_tags list.  The result carries payload, final url
and used_tag; None is the exhausted failure. -/
def search (env : Env) (tags : String) (a : SearchArgs) :
    List Req × Option (Json × String × String) :=
  searchGo env (buildParams a) (generate_tag_variants tags) [] 0

/-- ZerochanAPI.get_entry: one request to the id-addressed url with the
json flag; the result is returned only when it carries data, any
redirect_tag or None outcome yields None; no further request is made. -/
def get_entry (env : Env) (entry_id : Int) : List String × Option Json :=
  let url := ZEROCHAN_API_BASE ++ "/" ++ toString entry_id
  match env 0 url [("json", ParamVal.str "")] with
  | .data j _ => ([url], some j)
  | _ => ([url], none)

/-! ### Lemmas on the tag variant generator -/

theorem foldl_appendVariant_extends (vs : List String) :
    ∀ acc : List String, ∃ rest, vs.foldl appendVariant acc = acc ++ rest := by
  induction vs with
  | nil => intro acc; exact ⟨[], by simp⟩
  | cons v vs ih =>
    intro acc
    rcases ih (appendVariant acc v) with ⟨rest, hr⟩
    by_cases h : v ∈ acc
    · exact ⟨rest, by simpa [appendVariant, h] using hr⟩
    · exact ⟨v :: rest, by simpa [appendVariant, h] using hr⟩

theorem nodup_append_singleton {l : List String} {v : String}
    (hl : l.Nodup) (hv : v ∉ l) : (l ++ [v]).Nodup := by
  refine List.Nodup.append hl (List.nodup_singleton v) ?_
  intro a ha hb
  rcases List.mem_singleton.mp hb with rfl
  exact hv ha

theorem foldl_appendVariant_nodup (vs : List String) :
    ∀ acc : List String, acc.Nodup → (vs.foldl appendVariant acc).Nodup := by
  induction vs with
  | nil => intro acc h; simpa using h
  | cons v vs ih =>
    intro acc h
    apply ih
    by_cases hv : v ∈ acc
    · simpa [appendVariant, hv] using h
    · simpa [appendVariant, hv] using nodup_append_singleton h hv

theorem seedVariants_eq (tag : String) :
    seedVariants tag (translate_chinese tag) = [translate_chinese tag] := by
  unfold seedVariants
  by_cases h : translate_chinese tag ≠ tag
  · simp [h]
  · push_neg at h
    simp [h]

theorem withCommon_extends (translated : String) (acc : List String) :
    ∃ rest, withCommon translated acc = acc ++ rest := by
  unfold withCommon
  cases List.lookup (lowerPy translated) common_variants with
  | none => exact ⟨[], by simp⟩
  | some vs => exact foldl_appendVariant_extends vs acc

theorem withCommon_nodup (translated : String) (acc : List String)
    (h : acc.Nodup) : (withCommon translated acc).Nodup := by
  unfold withCommon
  cases List.lookup (lowerPy translated) common_variants with
  | none => exact h
  | some vs => exact foldl_appendVariant_nodup vs acc h

theorem withCapitalized_extends (translated : String) (acc : List String) :
    ∃ rest, withCapitalized translated acc = acc ++ rest := by
  unfold withCapitalized
  by_cases hc : titlePy translated ∈ acc
  · exact ⟨[], by simp [hc]⟩
  · exact ⟨[titlePy translated], by simp [hc]⟩

theorem withCapitalized_nodup (translated : String) (acc : List String)
    (h : acc.Nodup) : (withCapitalized translated acc).Nodup := by
  unfold withCapitalized
  by_cases hc : titlePy translated ∈ acc
  · simpa [hc] using h
  · simpa [hc] using nodup_append_singleton h hc

theorem generate_head (tag : String) :
    ∃ rest, generate_tag_variants tag = translate_chinese tag :: rest := by
  unfold generate_tag_variants
  rw [seedVariants_eq]
  rcases withCommon_extends (translate_chinese tag) [translate_chinese tag] with ⟨r1, h1⟩
  rcases withCapitalized_extends (translate_chinese tag)
      (withCommon (translate_chinese tag) [translate_chinese tag]) with ⟨r2, h2⟩
  exact ⟨r1 ++ r2, by rw [h2, h1]; simp⟩

theorem generate_nodup (tag : String) : (generate_tag_variants tag).Nodup := by
  unfold generate_tag_variants
  rw [seedVariants_eq]
  exact withCapitalized_nodup _ _ (withCommon_nodup _ _ (List.nodup_singleton _))

set_option maxRecDepth 100000 in
/-- Every key of the alias table has a translation differing from itself
and never reappears among its own generated candidates. -/
theorem chinese_keys_separated :
    ∀ p ∈ CHINESE_TO_ENGLISH,
      translate_chinese p.1 ≠ p.1 ∧ p.1 ∉ generate_tag_variants p.1 := by
  decide

theorem lookup_mem_keys :
    ∀ (l : List (String × String)) (k v : String),
      List.lookup k l = some v → k ∈ l.map Prod.fst := by
  intro l
  induction l with
  | nil => intro k v h; simp [List.lookup] at h
  | cons p t ih =>
    intro k v h
    obtain ⟨a, b⟩ := p
    by_cases hk : k = a
    · simp [hk]
    · have hb : (k == a) = false := beq_false_of_ne hk
      rw [List.lookup, hb] at h
      simp only [List.map_cons, List.mem_cons]
      exact Or.inr (ih k v h)

/-! ### Claims C2, C6 and C10 -/

/-- C2 counterexample: generate applied to the exact string "furina"
does not start with "Furina": its first element is the untranslated
input "furina" itself. -/
theorem claim2_counterexample :
    ¬ ((generate_tag_variants "furina").head? = some "Furina" ∧
       "Furina de Fontaine" ∈ generate_tag_variants "furina") := by
  decide

/-- C2 (amended): generate("furina") returns exactly
["furina", "Furina", "Furina de Fontaine", "Focalors"]: the first element
is the input "furina" unchanged (no alias applies and membership is
case-sensitive), "Furina" is the second element, and
"Furina de Fontaine" occurs as the third. -/
theorem claim2_amended_thm :
    generate_tag_variants "furina" =
      ["furina", "Furina", "Furina de Fontaine", "Focalors"] := by
  rfl

/-- C6: for every input string, the generated candidate sequence is
non-empty, contains no duplicate strings under exact string equality,
and its first element is the alias translation of the input (the input
itself when no alias exists). -/
theorem claim6_thm (tag : String) :
    generate_tag_variants tag ≠ [] ∧ (generate_tag_variants tag).Nodup ∧
    (generate_tag_variants tag).head? = some (translate_chinese tag) := by
  rcases generate_head tag with ⟨rest, h⟩
  exact ⟨by simp [h], generate_nodup tag, by simp [h]⟩

theorem claim6_witness :
    generate_tag_variants "furina" ≠ [] ∧ (generate_tag_variants "furina").Nodup ∧
    (generate_tag_variants "furina").head? = some (translate_chinese "furina") :=
  claim6_thm "furina"

/-- C10: every raw tag with an entry in the localized-to-canonical alias
mapping translates to something else, and the candidate sequence it
generates never contains the raw input string itself. -/
theorem claim10_thm (k : String) (h : k ∈ CHINESE_TO_ENGLISH.map Prod.fst) :
    translate_chinese k ≠ k ∧ k ∉ generate_tag_variants k := by
  rcases List.mem_map.mp h with ⟨p, hp, hpk⟩
  have := chinese_keys_separated p hp
  rwa [hpk] at this

theorem claim10_witness :
    "宵宫" ∈ CHINESE_TO_ENGLISH.map Prod.fst ∧
    (translate_chinese "宵宫" ≠ "宵宫" ∧ "宵宫" ∉ generate_tag_variants "宵宫") :=
  ⟨by decide, claim10_thm "宵宫" (by decide)⟩

/-! ### Lemmas on the canonical-link matcher: a returned group is never
empty (the group class is one-or-more). -/

theorem canonGroupStep_ne_nil {r4 g : List Char} (h : canonGroupStep r4 = some g) :
    g ≠ [] := by
  unfold canonGroupStep at h
  repeat' split at h
  all_goals try exact Option.noConfusion h
  have hx := Option.some.inj h
  subst hx
  exact fun hnil => List.noConfusion hnil

theorem canonAfterHref_ne_nil {r g : List Char} (h : canonAfterHref r = some g) :
    g ≠ [] := by
  rcases List.exists_of_findSome?_eq_some h with ⟨a, _, ha⟩
  exact canonGroupStep_ne_nil ha

theorem canonAfterRel_ne_nil {r g : List Char} (h : canonAfterRel r = some g) :
    g ≠ [] := by
  rcases List.exists_of_findSome?_eq_some h with ⟨a, _, ha⟩
  cases hd : dropPref "href=\"".toList a with
  | none => rw [hd] at ha; simp at ha
  | some r4 => rw [hd] at ha; exact canonAfterHref_ne_nil ha

theorem matchCanonAt_ne_nil {l g : List Char} (h : matchCanonAt l = some g) :
    g ≠ [] := by
  unfold matchCanonAt at h
  cases hd : dropPref "<link".toList l with
  | none => rw [hd] at h; simp at h
  | some r1 =>
    rw [hd] at h
    rcases List.exists_of_findSome?_eq_some h with ⟨a, _, ha⟩
    cases hd2 : dropPref "rel=\"canonical\"".toList a with
    | none => rw [hd2] at ha; simp at ha
    | some r3 => rw [hd2] at ha; exact canonAfterRel_ne_nil ha

theorem searchCanon_ne_nil {l g : List Char} (h : searchCanon l = some g) :
    g ≠ [] := by
  induction l with
  | nil => simp [searchCanon] at h
  | cons c tl ih =>
    rw [searchCanon] at h
    cases hm : matchCanonAt (c :: tl) with
    | some a =>
      rw [hm] at h
      simp only [Option.some.injEq] at h
      subst h
      exact matchCanonAt_ne_nil hm
    | none =>
      rw [hm] at h
      exact ih h

/-! ### Claims C4 and C5 -/

/-- C4 counterexample: for this 200-status body the title-like marker
matches but its group strips to the empty string, while the
canonical-link marker yields the non-empty tag "Furina"; the claim says
the outcome is RedirectTag "Furina", yet the code returns the empty
stripped title from the title branch, which _request treats as falsy,
so the outcome is Failure. -/
theorem claim4_counterexample :
    jsonParse "<title> - Zerochan</title><link rel=\"canonical\" href=\"https://www.zerochan.net/Furina\">" = none ∧
    (searchTitle ("<title> - Zerochan</title><link rel=\"canonical\" href=\"https://www.zerochan.net/Furina\">".toList)).map
        (fun g => String.mk (stripChars g)) = some "" ∧
    (searchCanon ("<title> - Zerochan</title><link rel=\"canonical\" href=\"https://www.zerochan.net/Furina\">".toList)).map
        (fun g => String.mk (g.map plusToSpace)) = some "Furina" ∧
    classify 200 "<title> - Zerochan</title><link rel=\"canonical\" href=\"https://www.zerochan.net/Furina\">" "u" =
      ReqOutcome.failure :=
  ⟨rfl, rfl, rfl, rfl⟩

/-- C4 (amended): on a 200 body that fails to parse as JSON, the title
marker is tried first and wins whenever it MATCHES — its stripped group
is the extraction result even when empty, in which case the outcome is
Failure and the canonical-link marker is never consulted; only when the
title marker does not match at all is the canonical-link marker tried,
and a match there (whose group is necessarily non-empty) yields
RedirectTag with plus signs replaced by spaces. -/
theorem claim4_amended_thm (body u : String) (hj : jsonParse body = none) :
    (∀ g, searchTitle body.toList = some g →
      classify 200 body u =
        (if String.mk (stripChars g) = "" then ReqOutcome.failure
         else ReqOutcome.redirectTag (String.mk (stripChars g)))) ∧
    (searchTitle body.toList = none →
      ∀ g, searchCanon body.toList = some g →
        classify 200 body u = ReqOutcome.redirectTag (String.mk (g.map plusToSpace))) := by
  constructor
  · intro g hg
    have he : extract_tag_from_html body = some (String.mk (stripChars g)) := by
      unfold extract_tag_from_html
      rw [hg]
    by_cases ht : String.mk (stripChars g) = "" <;> simp [classify, hj, he, ht]
  · intro hn g hg
    have he : extract_tag_from_html body = some (String.mk (g.map plusToSpace)) := by
      unfold extract_tag_from_html
      rw [hn, hg]
    have hne : String.mk (g.map plusToSpace) ≠ "" := by
      intro hcontr
      have hdata : g.map plusToSpace = [] := congrArg String.data hcontr
      cases g with
      | nil => exact searchCanon_ne_nil hg rfl
      | cons c cs => simp at hdata
    simp [classify, hj, he, hne]

theorem claim4_amended_witness :
    jsonParse "<link rel=\"canonical\" href=\"https://www.zerochan.net/Hu+Tao\">" = none ∧
    classify 200 "<link rel=\"canonical\" href=\"https://www.zerochan.net/Hu+Tao\">" "u" =
      ReqOutcome.redirectTag (String.mk ("Hu+Tao".toList.map plusToSpace)) :=
  ⟨rfl,
    (claim4_amended_thm "<link rel=\"canonical\" href=\"https://www.zerochan.net/Hu+Tao\">" "u" rfl).2
      rfl "Hu+Tao".toList rfl⟩

/-- C5: the response classifier is total over (status, body) pairs: a
non-200 status yields Failure without the body being able to change the
outcome, every result is exactly one of the three outcome kinds, and a
200 markup body with no extractable tag yields Failure. -/
theorem claim5_thm (status : Nat) (body : String) (u : String) :
    (status ≠ 200 → classify status body u = ReqOutcome.failure) ∧
    ((∃ j, classify status body u = ReqOutcome.data j u) ∨
     (∃ t, t ≠ "" ∧ classify status body u = ReqOutcome.redirectTag t) ∨
     classify status body u = ReqOutcome.failure) ∧
    (status = 200 → jsonParse body = none → extract_tag_from_html body = none →
      classify status body u = ReqOutcome.failure) := by
  refine ⟨?_, ?_, ?_⟩
  · intro h
    simp [classify, h]
  · by_cases h : status = 200
    · subst h
      cases hj : jsonParse body with
      | some j => exact Or.inl ⟨j, by simp [classify, hj]⟩
      | none =>
        cases he : extract_tag_from_html body with
        | none => exact Or.inr (Or.inr (by simp [classify, hj, he]))
        | some t =>
          by_cases ht : t = ""
          · exact Or.inr (Or.inr (by simp [classify, hj, he, ht]))
          · exact Or.inr (Or.inl ⟨t, ht, by simp [classify, hj, he, ht]⟩)
    · exact Or.inr (Or.inr (by simp [classify, h]))
  · intro h hj he
    simp [classify, h, hj, he]

theorem claim5_witness :
    ((404 : Nat) ≠ 200) ∧ classify 404 "not json at all" "u" = ReqOutcome.failure :=
  ⟨by decide, (claim5_thm 404 "not json at all" "u").1 (by decide)⟩

/-! ### Claim C3 -/

theorem mem_ite_pair {c : Prop} [Decidable c] {k s : String} {v : ParamVal} :
    (s ∈ List.map Prod.fst (if c then [(k, v)] else [])) ↔ (c ∧ s = k) := by
  split <;> simp_all

/-- C3 counterexample: with page = -1 (out of the declared positive
range) the parameter dict of the request is ["json", "p", "l"]: the page
parameter p IS included, because the source guards it only with Python
truthiness (page nonzero), not with a range check; the claim says an
out-of-range page is omitted. -/
theorem claim3_counterexample :
    (buildParams ⟨-1, 10, none, false, none, none, none⟩).map Prod.fst =
      ["json", "p", "l"] := by
  rfl

set_option maxHeartbeats 2000000 in
/-- C3 (amended): the limit parameter is included exactly when
1 <= limit <= 250 and the time-range parameter exactly when it is 0, 1
or 2 (out-of-range values silently dropped), but the page parameter is
included whenever page is nonzero — including negative pages; only
page = 0 is omitted. -/
theorem claim3_amended_thm (a : SearchArgs) :
    (("l" ∈ (buildParams a).map Prod.fst) ↔ (1 ≤ a.limit ∧ a.limit ≤ 250)) ∧
    (("t" ∈ (buildParams a).map Prod.fst) ↔
      (a.time_sort = some 0 ∨ a.time_sort = some 1 ∨ a.time_sort = some 2)) ∧
    (("p" ∈ (buildParams a).map Prod.fst) ↔ a.page ≠ 0) := by
  obtain ⟨page, limit, sort, strict, dims, color, ts⟩ := a
  refine ⟨?_, ?_, ?_⟩ <;>
    [rcases ts with _ | t; rcases ts with _ | t; rcases ts with _ | t] <;>
    rcases sort with _ | s <;> rcases dims with _ | d <;> rcases color with _ | c <;>
      simp [buildParams, mem_ite_pair] <;> try omega

theorem claim3_amended_witness :
    (("l" ∈ (buildParams ⟨2, 300, none, false, none, none, some 7⟩).map Prod.fst) ↔
      (1 ≤ (300 : Int) ∧ (300 : Int) ≤ 250)) ∧
    (("t" ∈ (buildParams ⟨2, 300, none, false, none, none, some 7⟩).map Prod.fst) ↔
      ((some 7 : Option Int) = some 0 ∨ (some 7 : Option Int) = some 1 ∨
        (some 7 : Option Int) = some 2)) ∧
    (("p" ∈ (buildParams ⟨2, 300, none, false, none, none, some 7⟩).map Prod.fst) ↔
      (2 : Int) ≠ 0) :=
  claim3_amended_thm ⟨2, 300, none, false, none, none, some 7⟩

/-! ### Lemmas on the candidate loop -/

theorem candTags_cand (c : String) (tr : List Req) :
    candTags (Req.cand c :: tr) = c :: candTags tr := rfl

theorem candTags_follow (t : String) (tr : List Req) :
    candTags (Req.follow t :: tr) = candTags tr := rfl

/-- The first request of a run over a non-empty candidate list is always
the main attempt for the first candidate. -/
theorem searchGo_head (env : Env) (params : List (String × ParamVal))
    (c : String) (rest tried : List String) (n : Nat) :
    (searchGo env params (c :: rest) tried n).1.head? = some (Req.cand c) := by
  simp only [searchGo]
  cases henv : env n (urlOf c) params with
  | data j u => simp
  | failure => simp
  | redirectTag t =>
    dsimp only []
    by_cases hg : t ≠ "" ∧ t ∉ tried ++ [c]
    · rw [if_pos hg]
      cases env (n + 1) (urlOf t) params <;> simp
    · rw [if_neg hg]
      simp

/-- The main attempts of a run are an order-preserving prefix of the
candidate list: each candidate is attempted at most once, in order. -/
theorem searchGo_cands_front (env : Env) (params : List (String × ParamVal)) :
    ∀ (cs tried : List String) (n : Nat),
      candTags (searchGo env params cs tried n).1 <+: cs := by
  intro cs
  induction cs with
  | nil => intro tried n; simp [searchGo, candTags]
  | cons c rest ih =>
    intro tried n
    simp only [searchGo]
    cases henv : env n (urlOf c) params with
    | data j u =>
      refine ⟨rest, ?_⟩
      simp [candTags]
    | failure =>
      rcases ih (tried ++ [c]) (n + 1) with ⟨suf, hsuf⟩
      exact ⟨suf, by simp [candTags_cand, hsuf]⟩
    | redirectTag t =>
      dsimp only []
      by_cases hg : t ≠ "" ∧ t ∉ tried ++ [c]
      · rw [if_pos hg]
        cases henv2 : env (n + 1) (urlOf t) params with
        | data j u =>
          refine ⟨rest, ?_⟩
          simp [candTags]
        | failure =>
          rcases ih (tried ++ [c]) (n + 2) with ⟨suf, hsuf⟩
          exact ⟨suf, by simp [candTags_cand, candTags_follow, hsuf]⟩
        | redirectTag t2 =>
          rcases ih (tried ++ [c]) (n + 2) with ⟨suf, hsuf⟩
          exact ⟨suf, by simp [candTags_cand, candTags_follow, hsuf]⟩
      · rw [if_neg hg]
        rcases ih (tried ++ [c]) (n + 1) with ⟨suf, hsuf⟩
        exact ⟨suf, by simp [candTags_cand, hsuf]⟩

/-- Every follow-up request in a trace targets a tag that is neither in
the tried set the run started from nor among the main attempts made up
to that point (the source checks the redirect tag against tried_tags,
which holds exactly those candidates). -/
theorem searchGo_follow_not_tried (env : Env) (params : List (String × ParamVal)) :
    ∀ (cs tried : List String) (n : Nat) (pre : List Req) (t : String) (post : List Req),
      (searchGo env params cs tried n).1 = pre ++ Req.follow t :: post →
      t ∉ tried ++ candTags pre := by
  intro cs
  induction cs with
  | nil =>
    intro tried n pre t post h
    simp [searchGo] at h
  | cons c rest ih =>
    intro tried n pre t post h
    simp only [searchGo] at h
    cases henv : env n (urlOf c) params with
    | data j u =>
      rw [henv] at h
      dsimp only [] at h
      cases pre with
      | nil => simp at h
      | cons r pre' => simp at h
    | failure =>
      rw [henv] at h
      dsimp only [] at h
      cases pre with
      | nil => simp at h
      | cons r pre' =>
        rw [List.cons_append] at h
        injection h with h1 h2
        subst h1
        have hres := ih (tried ++ [c]) (n + 1) pre' t post h2
        intro hmem
        apply hres
        simp only [candTags_cand, List.mem_append, List.mem_cons] at hmem ⊢
        tauto
    | redirectTag t0 =>
      rw [henv] at h
      dsimp only [] at h
      by_cases hg : t0 ≠ "" ∧ t0 ∉ tried ++ [c]
      · rw [if_pos hg] at h
        cases henv2 : env (n + 1) (urlOf t0) params with
        | data j u =>
          rw [henv2] at h
          dsimp only [] at h
          cases pre with
          | nil => simp at h
          | cons r pre' =>
            rw [List.cons_append] at h
            injection h with h1 h2
            subst h1
            cases pre' with
            | nil =>
              simp only [List.nil_append] at h2
              injection h2 with h21 h22
              injection h21 with ht
              subst ht
              simpa [candTags_cand, candTags] using hg.2
            | cons r2 pre'' => simp at h2
        | failure =>
          rw [henv2] at h
          dsimp only [] at h
          cases pre with
          | nil => simp at h
          | cons r pre' =>
            rw [List.cons_append] at h
            injection h with h1 h2
            subst h1
            cases pre' with
            | nil =>
              simp only [List.nil_append] at h2
              injection h2 with h21 h22
              injection h21 with ht
              subst ht
              simpa [candTags_cand, candTags] using hg.2
            | cons r2 pre'' =>
              rw [List.cons_append] at h2
              injection h2 with h21 h22
              subst h21
              have hres := ih (tried ++ [c]) (n + 2) pre'' t post h22
              intro hmem
              apply hres
              simp only [candTags_cand, candTags_follow, List.mem_append,
                List.mem_cons] at hmem ⊢
              tauto
        | redirectTag t2 =>
          rw [henv2] at h
          dsimp only [] at h
          cases pre with
          | nil => simp at h
          | cons r pre' =>
            rw [List.cons_append] at h
            injection h with h1 h2
            subst h1
            cases pre' with
            | nil =>
              simp only [List.nil_append] at h2
              injection h2 with h21 h22
              injection h21 with ht
              subst ht
              simpa [candTags_cand, candTags] using hg.2
            | cons r2 pre'' =>
              rw [List.cons_append] at h2
              injection h2 with h21 h22
              subst h21
              have hres := ih (tried ++ [c]) (n + 2) pre'' t post h22
              intro hmem
              apply hres
              simp only [candTags_cand, candTags_follow, List.mem_append,
                List.mem_cons] at hmem ⊢
              tauto
      · rw [if_neg hg] at h
        cases pre with
        | nil => simp at h
        | cons r pre' =>
          rw [List.cons_append] at h
          injection h with h1 h2
          subst h1
          have hres := ih (tried ++ [c]) (n + 1) pre' t post h2
          intro hmem
          apply hres
          simp only [candTags_cand, List.mem_append, List.mem_cons] at hmem ⊢
          tauto

/-- When the environment never yields structured data, the run fails
with None and its trace is exactly one main attempt per candidate, in
order, each followed by at most one follow-up. -/
theorem searchGo_no_data (env : Env) (params : List (String × ParamVal))
    (hnd : ∀ n u p j fu, env n u p ≠ ReqOutcome.data j fu) :
    ∀ (cs tried : List String) (n : Nat),
      (searchGo env params cs tried n).2 = none ∧
      ∃ fus : List (List String),
        fus.length = cs.length ∧ (∀ f ∈ fus, f.length ≤ 1) ∧
        (searchGo env params cs tried n).1 =
          List.flatten (List.zipWith (fun c f => Req.cand c :: f.map Req.follow) cs fus) := by
  intro cs
  induction cs with
  | nil =>
    intro tried n
    exact ⟨rfl, [], rfl, by simp, by simp [searchGo]⟩
  | cons c rest ih =>
    intro tried n
    simp only [searchGo]
    cases henv : env n (urlOf c) params with
    | data j u => exact absurd henv (hnd n (urlOf c) params j u)
    | failure =>
      obtain ⟨h2, fus, hlen, hbnd, htr⟩ := ih (tried ++ [c]) (n + 1)
      refine ⟨h2, [] :: fus, by simp [hlen], ?_, ?_⟩
      · intro f hf
        rcases List.mem_cons.mp hf with rfl | hf'
        · simp
        · exact hbnd f hf'
      · simp [htr]
    | redirectTag t0 =>
      dsimp only []
      by_cases hg : t0 ≠ "" ∧ t0 ∉ tried ++ [c]
      · rw [if_pos hg]
        cases henv2 : env (n + 1) (urlOf t0) params with
        | data j u => exact absurd henv2 (hnd (n + 1) (urlOf t0) params j u)
        | failure =>
          obtain ⟨h2, fus, hlen, hbnd, htr⟩ := ih (tried ++ [c]) (n + 2)
          refine ⟨h2, [t0] :: fus, by simp [hlen], ?_, ?_⟩
          · intro f hf
            rcases List.mem_cons.mp hf with rfl | hf'
            · simp
            · exact hbnd f hf'
          · simp [htr]
        | redirectTag t2 =>
          obtain ⟨h2, fus, hlen, hbnd, htr⟩ := ih (tried ++ [c]) (n + 2)
          refine ⟨h2, [t0] :: fus, by simp [hlen], ?_, ?_⟩
          · intro f hf
            rcases List.mem_cons.mp hf with rfl | hf'
            · simp
            · exact hbnd f hf'
          · simp [htr]
      · rw [if_neg hg]
        obtain ⟨h2, fus, hlen, hbnd, htr⟩ := ih (tried ++ [c]) (n + 1)
        refine ⟨h2, [] :: fus, by simp [hlen], ?_, ?_⟩
        · intro f hf
          rcases List.mem_cons.mp hf with rfl | hf'
          · simp
          · exact hbnd f hf'
        · simp [htr]

theorem flatten_zipWith_length_le :
    ∀ (cs : List String) (fus : List (List String)),
      (∀ f ∈ fus, f.length ≤ 1) →
      (List.flatten (List.zipWith (fun c f => Req.cand c :: f.map Req.follow) cs fus)).length ≤
        2 * cs.length := by
  intro cs
  induction cs with
  | nil => intro fus _; simp
  | cons c rest ih =>
    intro fus hbnd
    cases fus with
    | nil => simp
    | cons f fus' =>
      have hf := hbnd f (List.mem_cons_self f fus')
      have hrest := ih fus' (fun g hg => hbnd g (List.mem_cons_of_mem f hg))
      simp only [List.zipWith_cons_cons, List.flatten_cons, List.length_append,
        List.length_cons, List.length_map]
      omega

/-! ### Claims C1, C7, C8 and C9 -/

/-- Environment for the C1 counterexample: the first request is answered
with a redirect to the tag Furina, every other request fails. -/
def envC1 : Env := fun n _ _ =>
  if n = 0 then ReqOutcome.redirectTag "Furina" else ReqOutcome.failure

/-- C1 counterexample: searching "furina" against an upstream whose
first response redirects to "Furina" requests the tag "Furina" twice —
once as the redirect follow-up and once as the second original
candidate — because the source never adds a redirect tag to tried_tags.
The claim that all requested tags of one search call are pairwise
distinct is therefore false. -/
theorem claim1_counterexample :
    allTags (search envC1 "furina" ⟨1, 10, none, false, none, none, none⟩).1 =
      ["furina", "Furina", "Furina", "Furina de Fontaine", "Focalors"] ∧
    ¬ (allTags (search envC1 "furina" ⟨1, 10, none, false, none, none, none⟩).1).Nodup :=
  ⟨rfl, by decide⟩

/-- C1 (amended): within one search call every original candidate is
attempted at most once (the main attempts are a prefix of the
duplicate-free candidate list), and a redirect follow-up always targets
a tag different from every original candidate attempted up to and
including the one that produced it; but the redirect tag is not marked
tried, so the same tag can be requested again later, by a later original
candidate or by a later candidate redirecting to it again. -/
theorem claim1_amended_thm (env : Env) (tags : String) (a : SearchArgs) :
    candTags (search env tags a).1 <+: generate_tag_variants tags ∧
    (candTags (search env tags a).1).Nodup ∧
    (∀ pre t post, (search env tags a).1 = pre ++ Req.follow t :: post →
      t ∉ candTags pre) := by
  refine ⟨searchGo_cands_front env (buildParams a) (generate_tag_variants tags) [] 0,
    ?_, ?_⟩
  · exact List.Nodup.sublist
      (List.IsPrefix.sublist
        (searchGo_cands_front env (buildParams a) (generate_tag_variants tags) [] 0))
      (generate_nodup tags)
  · intro pre t post h
    have hres := searchGo_follow_not_tried env (buildParams a)
      (generate_tag_variants tags) [] 0 pre t post h
    simpa using hres

theorem claim1_amended_witness :
    candTags (search (fun _ _ _ => ReqOutcome.failure) "furina"
        ⟨1, 10, none, false, none, none, none⟩).1 <+: generate_tag_variants "furina" ∧
    (candTags (search (fun _ _ _ => ReqOutcome.failure) "furina"
        ⟨1, 10, none, false, none, none, none⟩).1).Nodup ∧
    (∀ pre t post,
      (search (fun _ _ _ => ReqOutcome.failure) "furina"
          ⟨1, 10, none, false, none, none, none⟩).1 = pre ++ Req.follow t :: post →
      t ∉ candTags pre) :=
  claim1_amended_thm (fun _ _ _ => ReqOutcome.failure) "furina"
    ⟨1, 10, none, false, none, none, none⟩

/-- C7: when no request of the environment ever yields structured data,
search returns None (the exhausted failure) after attempting every
generated candidate exactly once in order, issuing at most one redirect
follow-up per candidate, so the total number of upstream requests is at
most twice the number of generated candidates. -/
theorem claim7_thm (env : Env) (tags : String) (a : SearchArgs)
    (hnd : ∀ n u p j fu, env n u p ≠ ReqOutcome.data j fu) :
    (search env tags a).2 = none ∧
    (∃ fus : List (List String),
      fus.length = (generate_tag_variants tags).length ∧
      (∀ f ∈ fus, f.length ≤ 1) ∧
      (search env tags a).1 =
        List.flatten (List.zipWith (fun c f => Req.cand c :: f.map Req.follow)
          (generate_tag_variants tags) fus)) ∧
    (search env tags a).1.length ≤ 2 * (generate_tag_variants tags).length := by
  obtain ⟨h2, fus, hlen, hbnd, htr⟩ :=
    searchGo_no_data env (buildParams a) hnd (generate_tag_variants tags) [] 0
  refine ⟨h2, ⟨fus, hlen, hbnd, htr⟩, ?_⟩
  show (searchGo env (buildParams a) (generate_tag_variants tags) [] 0).1.length ≤ _
  rw [htr]
  exact flatten_zipWith_length_le (generate_tag_variants tags) fus hbnd

theorem claim7_witness :
    (search (fun _ _ _ => ReqOutcome.failure) "furina"
        ⟨1, 10, none, false, none, none, none⟩).2 = none ∧
    (∃ fus : List (List String),
      fus.length = (generate_tag_variants "furina").length ∧
      (∀ f ∈ fus, f.length ≤ 1) ∧
      (search (fun _ _ _ => ReqOutcome.failure) "furina"
          ⟨1, 10, none, false, none, none, none⟩).1 =
        List.flatten (List.zipWith (fun c f => Req.cand c :: f.map Req.follow)
          (generate_tag_variants "furina") fus)) ∧
    (search (fun _ _ _ => ReqOutcome.failure) "furina"
        ⟨1, 10, none, false, none, none, none⟩).1.length ≤
      2 * (generate_tag_variants "furina").length :=
  claim7_thm (fun _ _ _ => ReqOutcome.failure) "furina"
    ⟨1, 10, none, false, none, none, none⟩
    (fun _ _ _ _ _ h => ReqOutcome.noConfusion h)

/-- C8: alias translation is a verbatim case-sensitive exact-match
lookup returning the input unchanged when absent ("miku" translates but
"Miku" does not), and it is applied before any network call: search for
the tag 宵宫 generates the single candidate "Yoimiya" (the raw string is
not a candidate) and its first request is the main attempt for
"Yoimiya", whose url is built from the translated tag. -/
theorem claim8_thm (s : String)
    (hs : List.lookup s CHINESE_TO_ENGLISH.reverse = none)
    (env : Env) (a : SearchArgs) :
    translate_chinese s = s ∧
    translate_chinese "宵宫" = "Yoimiya" ∧
    translate_chinese "miku" = "Hatsune Miku" ∧
    translate_chinese "Miku" = "Miku" ∧
    generate_tag_variants "宵宫" = ["Yoimiya"] ∧
    "宵宫" ∉ generate_tag_variants "宵宫" ∧
    urlOf "Yoimiya" = "https://www.zerochan.net/Yoimiya" ∧
    (search env "宵宫" a).1.head? = some (Req.cand "Yoimiya") := by
  refine ⟨?_, rfl, rfl, rfl, rfl, by decide, rfl, ?_⟩
  · unfold translate_chinese dictGet
    rw [hs]
    rfl
  · show (searchGo env (buildParams a) (generate_tag_variants "宵宫") [] 0).1.head? = _
    have hgen : generate_tag_variants "宵宫" = ["Yoimiya"] := rfl
    rw [hgen]
    exact searchGo_head env (buildParams a) "Yoimiya" [] [] 0

theorem claim8_witness :
    translate_chinese "Furina" = "Furina" ∧
    translate_chinese "宵宫" = "Yoimiya" ∧
    translate_chinese "miku" = "Hatsune Miku" ∧
    translate_chinese "Miku" = "Miku" ∧
    generate_tag_variants "宵宫" = ["Yoimiya"] ∧
    "宵宫" ∉ generate_tag_variants "宵宫" ∧
    urlOf "Yoimiya" = "https://www.zerochan.net/Yoimiya" ∧
    (search (fun _ _ _ => ReqOutcome.failure) "宵宫"
        ⟨1, 10, none, false, none, none, none⟩).1.head? = some (Req.cand "Yoimiya") :=
  claim8_thm "Furina" rfl (fun _ _ _ => ReqOutcome.failure)
    ⟨1, 10, none, false, none, none, none⟩

/-- C9: get_entry issues exactly one request, addressed by the id, and
performs no variant search and no redirect handling: a data outcome
returns the payload, while a redirect-tag outcome and a failure outcome
are both mapped to None with no further request issued. -/
theorem claim9_thm (env : Env) (entry_id : Int) :
    (get_entry env entry_id).1 = [ZEROCHAN_API_BASE ++ "/" ++ toString entry_id] ∧
    (∀ j u, env 0 (ZEROCHAN_API_BASE ++ "/" ++ toString entry_id)
        [("json", ParamVal.str "")] = ReqOutcome.data j u →
      (get_entry env entry_id).2 = some j) ∧
    (∀ t, env 0 (ZEROCHAN_API_BASE ++ "/" ++ toString entry_id)
        [("json", ParamVal.str "")] = ReqOutcome.redirectTag t →
      (get_entry env entry_id).2 = none) ∧
    (env 0 (ZEROCHAN_API_BASE ++ "/" ++ toString entry_id)
        [("json", ParamVal.str "")] = ReqOutcome.failure →
      (get_entry env entry_id).2 = none) := by
  cases henv : env 0 (ZEROCHAN_API_BASE ++ "/" ++ toString entry_id)
      [("json", ParamVal.str "")] with
  | data j u =>
    refine ⟨by simp [get_entry, henv], ?_, ?_, ?_⟩
    · intro j' u' h
      injection h with h1 h2
      subst h1
      simp [get_entry, henv]
    · intro t h
      exact ReqOutcome.noConfusion h
    · intro h
      exact ReqOutcome.noConfusion h
  | redirectTag t0 =>
    refine ⟨by simp [get_entry, henv], ?_, ?_, ?_⟩
    · intro j' u' h
      exact ReqOutcome.noConfusion h
    · intro t h
      simp [get_entry, henv]
    · intro h
      exact ReqOutcome.noConfusion h
  | failure =>
    refine ⟨by simp [get_entry, henv], ?_, ?_, ?_⟩
    · intro j' u' h
      exact ReqOutcome.noConfusion h
    · intro t h
      exact ReqOutcome.noConfusion h
    · intro h
      simp [get_entry, henv]

/-- Environment for the C9 witness: every request is answered by the
classifier applied to a 404 response, as in the get_by_id(3793685)
scenario. -/
def env404 : Env := fun _ _ _ =>
  classify 404 "<html>page not found</html>" "irrelevant"

theorem claim9_witness :
    (get_entry env404 3793685).1 = ["https://www.zerochan.net/3793685"] ∧
    (get_entry env404 3793685).2 = none :=
  ⟨(claim9_thm env404 3793685).1, (claim9_thm env404 3793685).2.2.2 rfl⟩

end Zerochan
